/-
Verification of the emaps repository core against its specification.

Shallow embedding conventions:
* JavaScript numbers are modelled as rationals; JS array indexing that can
  go out of bounds is modelled with Option (undefined = none).
* External library primitives (PostGIS area and intersection, Google Maps
  containment, Math.sqrt, HTTP fetches, party colors, number formatting)
  are parameters of the embedded functions.
* The mutable module-level caches of data.ts are passed and returned
  explicitly; each load function also returns the number of batched data
  fetches it issued.
-/
import Mathlib

namespace Emaps

/-! ## data.ts : getQuantiles (src/vue/src/components/data.ts lines 266-280) -/

namespace DataTs

/-- JS Array.prototype.sort with comparator (a, b) => b - a: sorts the
numbers in descending order. -/
def sortDesc (values : List ℚ) : List ℚ :=
  values.insertionSort (fun a b => b ≤ a)

/-- JS Math.round: round half toward positive infinity. -/
def jsRound (q : ℚ) : ℤ := ⌊q + 1/2⌋

/-- JS array read values[i] for an integer index: undefined (none) when out
of range. -/
def jsIndex (l : List ℚ) (i : ℤ) : Option ℚ :=
  if i < 0 then none else l.get? i.toNat

/-- data.ts getQuantiles: sort descending, take the values at indices
round((i+1)*len/n) for i < n-1, then the last value; if the FIRST entry is
exactly 0 replace it by 0.1. Entries are Option: an out-of-range index
yields undefined (none), exactly as in JS. -/
def getQuantiles (values : List ℚ) (n : ℕ) : List (Option ℚ) :=
  let sorted := sortDesc values
  let len := sorted.length
  let step : ℚ := (len : ℚ) / (n : ℚ)
  let qs := (List.range (n - 1)).map
    (fun (i : ℕ) => jsIndex sorted (jsRound (((i : ℚ) + 1) * step)))
  let qs := qs ++ [jsIndex sorted ((len : ℤ) - 1)]
  if qs.head? = some (some 0) then some (1/10) :: qs.tail else qs

end DataTs

/-! ## PoleLabelPlacement (src/unnamed/part_005) -/

namespace PoleLabel

/-- A lat/lng point (google.maps.LatLng). -/
structure Point where
  lat : ℚ
  lng : ℚ
deriving DecidableEq, Repr

/-- A polygon as its list of paths; path 0 is the outer ring
(google.maps.Polygon.getPaths). -/
def Polygon := List (List Point)

/-- A candidate cell of the search. -/
structure Cell where
  x : ℚ
  y : ℚ
  distance : WithBot (WithTop ℚ)
deriving Repr

/-- distance(x1, y1, x2, y2): Euclidean distance; Math.sqrt is the external
parameter sqrtQ. -/
def distance (sqrtQ : ℚ → ℚ) (x1 y1 x2 y2 : ℚ) : ℚ :=
  let dx := x2 - x1
  let dy := y2 - y1
  sqrtQ (dx * dx + dy * dy)

/-- pointToSegmentDistance, translated clause by clause. -/
def pointToSegmentDistance (sqrtQ : ℚ → ℚ) (px py x1 y1 x2 y2 : ℚ) : ℚ :=
  let dx := x2 - x1
  let dy := y2 - y1
  if dx = 0 ∧ dy = 0 then distance sqrtQ px py x1 y1
  else
    let t := ((px - x1) * dx + (py - y1) * dy) / (dx * dx + dy * dy)
    if t < 0 then distance sqrtQ px py x1 y1
    else if t > 1 then distance sqrtQ px py x2 y2
    else distance sqrtQ px py (x1 + t * dx) (y1 + t * dy)

/-- getMinDistanceToEdge: minimum over every edge of every path, starting
from Infinity (modelled as the top of WithTop). -/
def getMinDistanceToEdge (sqrtQ : ℚ → ℚ) (p : Point) (poly : Polygon) : WithTop ℚ :=
  poly.foldl
    (fun acc path =>
      (List.range path.length).foldl
        (fun acc2 i =>
          match path.get? i, path.get? ((i + 1) % path.length) with
          | some p1, some p2 =>
            min acc2 (↑(pointToSegmentDistance sqrtQ p.lat p.lng p1.lat p1.lng p2.lat p2.lng))
          | _, _ => acc2)
        acc)
    (⊤ : WithTop ℚ)

/-- Grid coordinates of the findCandidate double loop: the values
start, start + cellSize, ... while < stop. Matches the JS loop for a
positive cellSize (for a non-positive one the JS loop never advances). -/
def gridCoords (start stop cellSize : ℚ) : List ℚ :=
  if 0 < cellSize then
    (List.range (⌈(stop - start) / cellSize⌉).toNat).map
      (fun (i : ℕ) => start + (i : ℚ) * cellSize)
  else []

/-- findCandidate: scan the grid over the bounding box, keep the contained
point with the largest minimum edge distance. Containment
(google.maps.geometry.poly.containsLocation) is the external parameter
contains. -/
def findCandidate (sqrtQ : ℚ → ℚ) (contains : Point → Polygon → Bool)
    (poly : Polygon) (swLat swLng neLat neLng cellSize : ℚ) : Cell :=
  (gridCoords swLng neLng cellSize).foldl
    (fun best x =>
      (gridCoords swLat neLat cellSize).foldl
        (fun best2 y =>
          let point : Point := ⟨y, x⟩
          if ¬ contains point poly then best2
          else
            let d : WithBot (WithTop ℚ) := ↑(getMinDistanceToEdge sqrtQ point poly)
            if best2.distance < d then ⟨x, y, d⟩ else best2)
        best)
    ⟨0, 0, ⊥⟩

/-- refineCell: check the 8 surrounding points plus the center at offsets
-cellSize, 0, cellSize (the JS loop from -cellSize to cellSize stepping
cellSize, for a positive cellSize). -/
def refineCell (sqrtQ : ℚ → ℚ) (contains : Point → Polygon → Bool)
    (poly : Polygon) (cell : Cell) (cellSize : ℚ) : Cell :=
  ([-cellSize, 0, cellSize] : List ℚ).foldl
    (fun best dx =>
      ([-cellSize, 0, cellSize] : List ℚ).foldl
        (fun best2 dy =>
          let x := cell.x + dx
          let y := cell.y + dy
          let point : Point := ⟨y, x⟩
          if ¬ contains point poly then best2
          else
            let d : WithBot (WithTop ℚ) := ↑(getMinDistanceToEdge sqrtQ point poly)
            if best2.distance < d then ⟨x, y, d⟩ else best2)
        best)
    cell

/-- The while loop of findPosition, with explicit fuel. The JS guard is
cellSize > precision, and the body never updates cellSize (it is a const):
both guard operands are loop invariants. Returns none when the fuel runs
out with the guard still true (the loop is still running). -/
def refineLoop (sqrtQ : ℚ → ℚ) (contains : Point → Polygon → Bool)
    (poly : Polygon) (precision cellSize : ℚ) : ℕ → Cell → Option Cell
  | 0, best => if cellSize > precision then none else some best
  | fuel + 1, best =>
    if cellSize > precision then
      refineLoop sqrtQ contains poly precision cellSize fuel
        (refineCell sqrtQ contains poly best (cellSize / 2))
    else some best

/-- Bounding box of a path: LatLngBounds extended by every point. none for
an empty path (an empty LatLngBounds has no meaningful corners). -/
def pathBounds : List Point → Option (ℚ × ℚ × ℚ × ℚ)
  | [] => none
  | p :: ps => some (ps.foldl
      (fun (b : ℚ × ℚ × ℚ × ℚ) q =>
        (min b.1 q.lat, min b.2.1 q.lng, max b.2.2.1 q.lat, max b.2.2.2 q.lng))
      (p.lat, p.lng, p.lat, p.lng))

/-- findPosition with explicit fuel for its while loop: bounding box of
path 0, initial cell size min(width, height) / 10, one grid search, then
the refinement loop. Returns none when the loop has not finished within
the given fuel (or the outer ring is empty). -/
def findPositionFuel (sqrtQ : ℚ → ℚ) (contains : Point → Polygon → Bool)
    (precision : ℚ) (poly : Polygon) (fuel : ℕ) : Option Point :=
  match pathBounds (poly.headD []) with
  | none => none
  | some (swLat, swLng, neLat, neLng) =>
    let width := neLng - swLng
    let height := neLat - swLat
    let cellSize := min width height / 10
    let bestCell := findCandidate sqrtQ contains poly swLat swLng neLat neLng cellSize
    (refineLoop sqrtQ contains poly precision cellSize fuel bestCell).map
      (fun c => ⟨c.y, c.x⟩)

end PoleLabel

/-! ## MapService (src/unnamed/part_002) and the API routes (src/unnamed/part_003) -/

namespace MapSvc

/-- A row of the map_shp table, over an abstract geometry type. -/
structure Shp (γ : Type) where
  map_id : ℤ
  id : String
  geom : γ
deriving DecidableEq, Repr

/-- The join predicate of GetGeoJsonFromIntersect:
ST_Area(ST_Intersection(shp.geom, bounds.geom)) / ST_Area(shp.geom) >= 0.2.
PostgreSQL raises a division-by-zero error when ST_Area(shp.geom) is 0;
area and inter are the external PostGIS primitives. -/
def ratioPred {γ : Type} (area : γ → ℚ) (inter : γ → γ → γ)
    (shp bounds : Shp γ) : Except String Bool :=
  if area shp.geom = 0 then .error "division by zero"
  else .ok (decide ((2:ℚ)/10 ≤ area (inter shp.geom bounds.geom) / area shp.geom))

/-- One candidate row joined against every boundary row: the inner join
emits the candidate once per boundary row whose predicate holds; a
predicate error aborts the query. -/
def joinOne {γ : Type} (area : γ → ℚ) (inter : γ → γ → γ)
    (s : Shp γ) : List (Shp γ) → Except String (List (Shp γ))
  | [] => .ok []
  | b :: bs =>
    match ratioPred area inter s b with
    | .error e => .error e
    | .ok r =>
      match joinOne area inter s bs with
      | .error e => .error e
      | .ok rest => .ok (if r then s :: rest else rest)

/-- All candidate rows joined against the boundary rows, in row order. -/
def joinAll {γ : Type} (area : γ → ℚ) (inter : γ → γ → γ)
    (bnds : List (Shp γ)) : List (Shp γ) → Except String (List (Shp γ))
  | [] => .ok []
  | s :: ss =>
    match joinOne area inter s bnds with
    | .error e => .error e
    | .ok here =>
      match joinAll area inter bnds ss with
      | .error e => .error e
      | .ok rest => .ok (here ++ rest)

/-- MapService.GetGeoJsonFromIntersect: candidates are the rows of mapId,
boundary rows those of intersectMapId with the given feature id; the join
keeps candidates whose overlap ratio is at least 0.2. -/
def GetGeoJsonFromIntersect {γ : Type} (area : γ → ℚ) (inter : γ → γ → γ)
    (db : List (Shp γ)) (mapId intersectMapId : ℤ) (intersectFeatureId : String) :
    Except String (List (Shp γ)) :=
  let cands := db.filter (fun s => s.map_id = mapId)
  let bnds := db.filter (fun b => b.map_id = intersectMapId ∧ b.id = intersectFeatureId)
  joinAll area inter bnds cands

/-- A bounding box west,south,east,north (ST_MakeEnvelope argument). -/
structure BBox where
  west : ℚ
  south : ℚ
  east : ℚ
  north : ℚ
deriving DecidableEq, Repr

/-- MapService.GetSimplifyTolerance: the zoom to tolerance step table. -/
def GetSimplifyTolerance (zoom : ℤ) : ℚ :=
  if zoom ≥ 15 then 3/10000
  else if zoom = 14 then 4/10000
  else if zoom = 13 then 5/10000
  else if zoom = 12 then 1/1000
  else if zoom = 11 then 2/1000
  else if zoom ≤ 7 then 1/10
  else 1/100

/-- MapService.GetGeoJsonFromBounds: rows of mapId whose geometry
intersects the envelope; the returned geometry is the stored geometry,
unchanged. intersects is the external ST_Intersects. -/
def GetGeoJsonFromBounds {γ : Type} (intersects : γ → BBox → Bool)
    (db : List (Shp γ)) (mapId : ℤ) (box : BBox) : List (Shp γ) :=
  db.filter (fun s => s.map_id = mapId ∧ intersects s.geom box)

/-- MapService.GetGeoJsonFromBoundsWithSimplify: same filter, then
ST_CoverageSimplify(geom, tolerance) OVER () applied with the whole result
set as its window. coverage is the external ST_CoverageSimplify, taking
the tolerance, the window (every geometry of the result set) and the row's
own geometry. -/
def GetGeoJsonFromBoundsWithSimplify {γ : Type} (intersects : γ → BBox → Bool)
    (coverage : ℚ → List γ → γ → γ)
    (db : List (Shp γ)) (mapId : ℤ) (box : BBox) (zoom : ℤ) : List (Shp γ) :=
  let tolerance := GetSimplifyTolerance zoom
  let x := db.filter (fun s => s.map_id = mapId ∧ intersects s.geom box)
  let window := x.map (fun s => s.geom)
  x.map (fun s => { s with geom := coverage tolerance window s.geom })

/-- The mapId rewrite of the bounding-box route in Program.cs: federal
ridings (map 30) are swapped for pre-simplified maps 31/32 by zoom. -/
def remapBoundsMapId (mapId zoom : ℤ) : ℤ :=
  if mapId = 30 then (if zoom ≤ 9 then 32 else 31) else mapId

/-- The GET /api/map/mapId/west,south,east,north/zoom handler: remaps the
mapId, then calls GetGeoJsonFromBounds (not the WithSimplify variant). -/
def apiMapBounds {γ : Type} (intersects : γ → BBox → Bool)
    (db : List (Shp γ)) (mapId : ℤ) (box : BBox) (zoom : ℤ) : List (Shp γ) :=
  GetGeoJsonFromBounds intersects db (remapBoundsMapId mapId zoom) box

end MapSvc

/-! ## DataService (src/www/Services/DataService.cs) -/

namespace DataSvc

/-- DataService.GetElectionData: guards on the geoId list length, then
runs the query. The query itself (Dapper + SQL) is the external parameter
dbQuery; it receives the full, untruncated geoId list. -/
def GetElectionData {ρ : Type} (dbQuery : ℤ → List String → ρ)
    (electionId : ℤ) (geoId : List String) : Except String ρ :=
  if geoId.length = 0 then .error "At least one geoId must be provided"
  else if geoId.length > 2000 then .error "Too many geoIds"
  else .ok (dbQuery electionId geoId)

/-- DataService.GetCensusData: guards on the geoId and traitId list
lengths, then runs the query with the full lists. -/
def GetCensusData {ρ : Type} (dbQuery : List ℤ → List String → ρ)
    (traitId : List ℤ) (geoId : List String) : Except String ρ :=
  if geoId.length = 0 then .error "At least one geoId must be provided"
  else if geoId.length > 2000 then .error "Too many geoIds"
  else if traitId.length = 0 then .error "At least one traitId must be provided"
  else if traitId.length > 50 then .error "Too many traitIds"
  else .ok (dbQuery traitId geoId)

end DataSvc

/-! ## MapHelper (src/unnamed/part_007) -/

namespace MapHelperM

/-- The display type of a MapLayer. -/
inductive LType where
  | point
  | polygon
  | polyline
deriving DecidableEq, Repr

/-- GeoJSON geometry types seen by addLayer. -/
inductive GeomType where
  | gPolygon
  | gMultiPolygon
  | gLineString
  | gMultiLineString
  | gPoint
  | gUnknown
deriving DecidableEq, Repr

/-- The visibility-relevant part of a MapLayer: its name, its display type
(undefined until a known geometry is seen) and its visibility flag. -/
structure Layer where
  name : String
  type : Option LType
  visible : Bool
deriving DecidableEq, Repr

/-- MapHelper.layers. Object identity is the position in the list. -/
abbrev State := List Layer

/-- Indexed map over a list, carrying the position from offset k: the
shape of the for (const l of this.layers) loops that treat the iterated
layer differently when it is (or is not) the argument layer. -/
def mapIdxGo {α β : Type} (f : ℕ → α → β) : ℕ → List α → List β
  | _, [] => []
  | k, a :: as => f k a :: mapIdxGo f (k + 1) as

/-- Indexed map from position 0. -/
def mapIdxL {α β : Type} (f : ℕ → α → β) (l : List α) : List β :=
  mapIdxGo f 0 l

/-- The layer type assigned for one geometry type (none = unsupported,
reported and skipped without touching layer.type). -/
def geomLType : GeomType → Option LType
  | .gPolygon => some .polygon
  | .gMultiPolygon => some .polygon
  | .gLineString => some .polyline
  | .gMultiLineString => some .polyline
  | .gPoint => some .point
  | .gUnknown => none

/-- layer.type after the addLayer feature loop: each known geometry
overwrites it in turn. -/
def layerTypeOf (gs : List GeomType) : Option LType :=
  gs.foldl (fun t g => match geomLType g with | some lt => some lt | none => t) none

/-- hideLayer on the layer object itself: visibility off. -/
def hideL (l : Layer) : Layer := { l with visible := false }

/-- MapHelper.hideLayer for the layer at position i. -/
def hideLayer (s : State) (i : ℕ) : State :=
  mapIdxL (fun j l => if j = i then hideL l else l) s

/-- MapHelper.hideAllLayers: hideLayer on every visible layer. -/
def hideAllLayers (s : State) : State :=
  s.map (fun l => if l.visible then hideL l else l)

/-- MapHelper.showLayer for the layer at position i: first hide every
other visible polygon layer, then set the shown layer visible. -/
def showLayer (s : State) (i : ℕ) : State :=
  let s1 := mapIdxL
    (fun j l => if l.type = some .polygon ∧ l.visible ∧ j ≠ i then hideL l else l) s
  mapIdxL (fun j l => if j = i then { l with visible := true } else l) s1

/-- MapHelper.removeLayer for the layer at position i: hide it, then drop
it from the list. -/
def removeLayer (s : State) (i : ℕ) : State :=
  (hideLayer s i).eraseIdx i

/-- MapHelper.refreshLayer: restyles features, visibility unchanged; on
the visibility state it is the identity. -/
def refreshLayer (s : State) : State := s

/-- MapHelper.addLayer: an existing layer with the same name is removed
first; the new layer is appended hidden, its type set by its geometries. -/
def addLayer (s : State) (name : String) (gs : List GeomType) : State :=
  let s1 := match s.findIdx? (fun l => l.name = name) with
    | some i => removeLayer s i
    | none => s
  s1 ++ [⟨name, layerTypeOf gs, false⟩]

/-- A layer that counts against the polygon mutual-exclusion invariant. -/
def visiblePolygon (l : Layer) : Bool := l.visible && l.type = some .polygon

/-- The single-visible-polygon-layer invariant. -/
def polyExclusion (s : State) : Prop := (s.countP visiblePolygon) ≤ 1

instance (s : State) : Decidable (polyExclusion s) := by
  unfold polyExclusion; infer_instance

end MapHelperM

/-! ## data.ts : caches, fetch-and-cache operations, tooltips
(src/vue/src/components/data.ts) -/

namespace DataTs

/-- An ElectionData row as received by the client (shortened keys). -/
structure ERow where
  e : ℤ
  g : String
  p : String
  c : String
  v : ℤ
  vp : ℚ
deriving DecidableEq, Repr

/-- A CensusData row as received by the client. -/
structure CRow where
  t : ℤ
  g : String
  v : ℚ
deriving DecidableEq, Repr

/-- A CensusTrait as cached by the client. -/
structure CTrait where
  id : ℤ
  name : String
  category : Option String
  isRate : Bool
deriving DecidableEq, Repr

/-- A JS Map: insertion-ordered association list with unique keys. -/
abbrev AMap (κ α : Type) := List (κ × α)

/-- Map.prototype.get. -/
def aget {κ α : Type} [BEq κ] (m : AMap κ α) (k : κ) : Option α :=
  (m.find? (fun e => e.1 == k)).map (fun e => e.2)

/-- Map.prototype.has. -/
def ahas {κ α : Type} [BEq κ] (m : AMap κ α) (k : κ) : Bool :=
  (m.find? (fun e => e.1 == k)).isSome

/-- Map.prototype.set: replace in place, or append a new entry. -/
def aset {κ α : Type} [BEq κ] (m : AMap κ α) (k : κ) (v : α) : AMap κ α :=
  if ahas m k then m.map (fun e => if e.1 == k then (k, v) else e)
  else m ++ [(k, v)]

/-- The election cache key electionId + '-' + geoId. -/
def ekey (electionId : ℤ) (g : String) : String := toString electionId ++ "-" ++ g

/-- data.ts loadElectionData, cache part: compute the missing geoIds; if
any, issue ONE batched fetch, then (only after the fetch resolves) write
empty placeholders for every missing id and merge the returned rows,
deduplicated per party. Returns the completion status, the election cache
after the call, and how many batched data fetches were issued. A fetch
rejection propagates with the cache exactly as it was (the source writes
nothing before the await). The legend/styling values it also computes do
not touch the cache and are omitted here. -/
def loadElectionData (fetch : ℤ → List String → Except Unit (List ERow))
    (electionId : ℤ) (cache : AMap String (List ERow)) (geoIds : List String) :
    Except Unit Unit × AMap String (List ERow) × ℕ :=
  let missing := geoIds.filter (fun g => ! ahas cache (ekey electionId g))
  if missing.isEmpty then (.ok (), cache, 0)
  else
    match fetch electionId missing with
    | .error err => (.error err, cache, 1)
    | .ok data =>
      let c1 := missing.foldl (fun m g =>
          if ahas m (ekey electionId g) then m else aset m (ekey electionId g) []) cache
      let c2 := data.foldl (fun m row =>
          let k := ekey electionId row.g
          let group := (aget m k).getD []
          let group2 := if group.any (fun r => r.p == row.p) then group else group ++ [row]
          aset m k group2) c1
      (.ok (), c2, 1)

/-- data.ts loadCensusTraits: a no-op once the trait cache is non-empty,
otherwise every fetched trait is stored by id. -/
def loadCensusTraits (fetchTraits : List CTrait) (tcache : AMap ℤ CTrait) :
    AMap ℤ CTrait :=
  if tcache.length > 0 then tcache
  else fetchTraits.foldl (fun m tr => aset m tr.id tr) tcache

/-- data.ts loadCensusData, cache part: load the trait cache, make sure
the requested trait is among the traits to load, compute the geoIds
missing from the census cache (keyed by geoId only); if any, issue ONE
batched fetch, then write empty placeholders and merge rows, deduplicated
per traitId. Returns status, both caches after the call, and the number of
batched census-data fetches issued (the reference-data traits listing is
not counted). -/
def loadCensusData (fetchTraits : List CTrait)
    (fetch : List ℤ → List String → Except Unit (List CRow))
    (tcache : AMap ℤ CTrait) (ccache : AMap String (List CRow))
    (trait : CTrait) (traits : List CTrait) (geoIds : List String) :
    Except Unit Unit × AMap ℤ CTrait × AMap String (List CRow) × ℕ :=
  let tcache1 := loadCensusTraits fetchTraits tcache
  let traits1 := if traits.contains trait then traits else traits ++ [trait]
  let missing := geoIds.filter (fun g => ! ahas ccache g)
  if missing.isEmpty then (.ok (), tcache1, ccache, 0)
  else
    match fetch (traits1.map (fun t => t.id)) missing with
    | .error err => (.error err, tcache1, ccache, 1)
    | .ok data =>
      let c1 := missing.foldl (fun m g => if ahas m g then m else aset m g []) ccache
      let c2 := data.foldl (fun m row =>
          let group := (aget m row.g).getD []
          let group2 := if group.any (fun r => r.t == row.t) then group else group ++ [row]
          aset m row.g group2) c1
      (.ok (), tcache1, c2, 1)

/-- data.ts purgeCensusData: clears the census data cache only. -/
def purgeCensusData (_ccache : AMap String (List CRow)) : AMap String (List CRow) := []

/-- getTooltip, election branch: title and one (party, pct, color) row per
cached row; an id placeholdered empty, or never cached, yields no rows.
getPartyColor is the external color table. -/
def getTooltipElection (getPartyColor : String → String)
    (ecache : AMap String (List ERow)) (electionId : ℤ) (id : String) :
    String × List (String × ℚ × String) :=
  match aget ecache (ekey electionId id) with
  | some group => (id, group.map (fun r => (r.p, r.vp, getPartyColor r.p)))
  | none => (id, [])

/-- getTooltip, census branch: one (traitId, name, formatted value) row
per cached row. toFixed is the external JS number formatting. The source
reads the trait cache through a non-null assertion; a missing trait (a
runtime TypeError in JS) is modelled as empty strings. -/
def getTooltipCensus (toFixed : ℚ → ℕ → String)
    (ccache : AMap String (List CRow)) (tcache : AMap ℤ CTrait) (id : String) :
    String × List (ℤ × String × String) :=
  match aget ccache id with
  | some group => (id, group.map (fun r =>
      match aget tcache r.t with
      | some tr => (r.t,
          (match tr.category with | some c => c ++ ": " ++ tr.name | none => tr.name),
          (if tr.isRate then toFixed r.v 1 ++ "%" else toFixed r.v 0))
      | none => (r.t, "", "")))
  | none => (id, [])

end DataTs

/-! # Theorems -/

namespace DataTs

/-- jsIndex returns the list element whenever the index is in range. -/
theorem jsIndex_eq_get (l : List ℚ) (i : ℤ) (h0 : 0 ≤ i) (hlt : i < l.length) :
    jsIndex l i = some (l.get ⟨i.toNat, by omega⟩) := by
  rw [jsIndex, if_neg (by omega)]
  exact List.get?_eq_get _

/-- C1, counterexample. The spec claims the LOWEST (last) boundary is
never literally 0, but getQuantiles on [90, 50, 10, 0] returns
[50, 10, 0, 0]: the last boundary is 0 (the epsilon replacement tests the
first, highest boundary instead). -/
theorem C1_counterexample :
    getQuantiles [90, 50, 10, 0] 4 = [some 50, some 10, some 0, some 0]
      ∧ (getQuantiles [90, 50, 10, 0] 4).getLast? = some (some 0) := by
  have h1 : sortDesc [90, 50, 10, 0] = [90, 50, 10, 0] := by
    norm_num [sortDesc, List.insertionSort, List.orderedInsert]
  have h2 : List.range 3 = [0, 1, 2] := by rfl
  have hmain : getQuantiles [90, 50, 10, 0] 4 = [some 50, some 10, some 0, some 0] := by
    simp only [getQuantiles, h1, h2, List.map_cons, List.map_nil, List.length_cons,
      List.length_nil, jsIndex, jsRound]
    norm_num [Int.floor_eq_iff]
    simp only [show (2:ℤ).toNat = 2 from rfl, show (3:ℤ).toNat = 3 from rfl]
    norm_num
  exact ⟨hmain, by rw [hmain]; rfl⟩

/-- C1, amended. For every list of at least 3 values, getQuantiles with
n = 4 returns exactly 4 numeric boundaries in non-increasing order, and
the FIRST (highest) boundary is never literally 0 (replaced by 0.1 when it
is computed as 0); the last (lowest) boundary can be 0. For 1- or
2-element lists some interior boundaries read past the sorted array and
are undefined. -/
theorem C1_amended (values : List ℚ) (h3 : 3 ≤ values.length) :
    ∃ a b c d : ℚ, getQuantiles values 4 = [some a, some b, some c, some d]
      ∧ b ≤ a ∧ c ≤ b ∧ d ≤ c ∧ a ≠ 0 := by
  classical
  have hsorted : (sortDesc values).Sorted (· ≥ ·) := List.sorted_insertionSort _ _
  have hlen : (sortDesc values).length = values.length :=
    (List.perm_insertionSort _ values).length_eq
  set s := sortDesc values with hs
  set len := s.length with hlendef
  have hlen3 : 3 ≤ len := by omega
  have hlenQ : (3:ℚ) ≤ (len:ℚ) := by exact_mod_cast hlen3
  set step : ℚ := (len : ℚ) / ((4:ℕ) : ℚ) with hstep
  set i0 := jsRound ((((0:ℕ):ℚ) + 1) * step) with hi0def
  set i1 := jsRound ((((1:ℕ):ℚ) + 1) * step) with hi1def
  set i2 := jsRound ((((2:ℕ):ℚ) + 1) * step) with hi2def
  set i3 := ((len:ℤ) - 1) with hi3def
  have hc4 : ((4:ℕ):ℚ) = (4:ℚ) := by norm_num
  have hi0nn : 0 ≤ i0 := by
    rw [hi0def, jsRound, Int.le_floor]; push_cast; rw [hstep, hc4]; linarith
  have hi01 : i0 ≤ i1 := by
    rw [hi0def, hi1def]; apply Int.floor_le_floor; push_cast; rw [hstep, hc4]; linarith
  have hi12 : i1 ≤ i2 := by
    rw [hi1def, hi2def]; apply Int.floor_le_floor; push_cast; rw [hstep, hc4]; linarith
  have hi2lt : i2 < (len:ℤ) := by
    rw [hi2def, jsRound, Int.floor_lt]; push_cast; rw [hstep, hc4]; linarith
  have hi23 : i2 ≤ i3 := by omega
  have hi3lt : i3 < (len:ℤ) := by omega
  have hb0 : 0 ≤ i1 := le_trans hi0nn hi01
  have hb1 : 0 ≤ i2 := le_trans hb0 hi12
  have hb3 : 0 ≤ i3 := by omega
  have hi0lt : i0 < (len:ℤ) := by omega
  have hi1lt : i1 < (len:ℤ) := by omega
  have hg0 := jsIndex_eq_get s i0 hi0nn (by omega)
  have hg1 := jsIndex_eq_get s i1 hb0 (by omega)
  have hg2 := jsIndex_eq_get s i2 hb1 (by omega)
  have hg3 := jsIndex_eq_get s i3 hb3 (by omega)
  set a0 : ℚ := s.get ⟨i0.toNat, by omega⟩ with ha0
  set b0 : ℚ := s.get ⟨i1.toNat, by omega⟩ with hb0def
  set c0 : ℚ := s.get ⟨i2.toNat, by omega⟩ with hc0def
  set d0 : ℚ := s.get ⟨i3.toNat, by omega⟩ with hd0def
  have hba : b0 ≤ a0 := hsorted.rel_get_of_le (by simp [Fin.le_def]; omega)
  have hcb : c0 ≤ b0 := hsorted.rel_get_of_le (by simp [Fin.le_def]; omega)
  have hdc : d0 ≤ c0 := hsorted.rel_get_of_le (by simp [Fin.le_def]; omega)
  have hmap : (List.range 3).map
      (fun i : ℕ => jsIndex s (jsRound (((i:ℚ) + 1) * step)))
      = [jsIndex s i0, jsIndex s i1, jsIndex s i2] := rfl
  have hq : getQuantiles values 4 =
      (if ([some a0, some b0, some c0, some d0] : List (Option ℚ)).head? = some (some 0)
        then some (1/10) :: ([some a0, some b0, some c0, some d0] : List (Option ℚ)).tail
        else [some a0, some b0, some c0, some d0]) := by
    simp only [getQuantiles, ← hs, ← hlendef, ← hstep, hmap, ← hi3def,
      hg0, hg1, hg2, hg3, ← ha0, ← hb0def, ← hc0def, ← hd0def,
      List.cons_append, List.nil_append]
  by_cases hz : a0 = 0
  · refine ⟨1/10, b0, c0, d0, ?_, ?_, hcb, hdc, by norm_num⟩
    · rw [hq, if_pos (by rw [hz]; rfl)]
      rfl
    · rw [hz] at hba; linarith
  · refine ⟨a0, b0, c0, d0, ?_, hba, hcb, hdc, hz⟩
    rw [hq, if_neg (by simp [hz])]

/-- C1, witness: the amended theorem applied to the concrete 3-element
list [9, 5, 1]. -/
theorem C1_witness :
    3 ≤ ([9, 5, 1] : List ℚ).length
      ∧ ∃ a b c d : ℚ, getQuantiles [9, 5, 1] 4 = [some a, some b, some c, some d]
        ∧ b ≤ a ∧ c ≤ b ∧ d ≤ c ∧ a ≠ 0 :=
  ⟨by norm_num, C1_amended [9, 5, 1] (by norm_num)⟩

end DataTs

namespace PoleLabel

/-- The refinement loop never exits on its own when the (constant) cell
size exceeds the precision: the guard reads two loop invariants. -/
theorem refineLoop_eq_none (sqrtQ : ℚ → ℚ) (contains : Point → Polygon → Bool)
    (poly : Polygon) (precision cellSize : ℚ) (h : cellSize > precision) :
    ∀ fuel best, refineLoop sqrtQ contains poly precision cellSize fuel best = none := by
  intro fuel
  induction fuel with
  | zero => intro best; simp [refineLoop, h]
  | succ n ih => intro best; simp only [refineLoop, if_pos h]; exact ih _

/-- C2: the label-placement search does NOT terminate for every polygon.
findPosition's while loop guard compares the const cellSize with the
precision and the body never updates cellSize, so on the square with
bounding box (0,0)-(30,30) (initial cell size 3 > precision 1) the loop
never exits, whatever Math.sqrt, the containment test or the fuel: the
code loops forever where the claim promises a finite iteration count. -/
theorem C2_findPosition_diverges (sqrtQ : ℚ → ℚ) (contains : Point → Polygon → Bool)
    (fuel : ℕ) :
    findPositionFuel sqrtQ contains 1
      [[⟨0, 0⟩, ⟨0, 30⟩, ⟨30, 30⟩, ⟨30, 0⟩]] fuel = none := by
  have hb : pathBounds (([[⟨0, 0⟩, ⟨0, 30⟩, ⟨30, 30⟩, ⟨30, 0⟩]] : Polygon).headD [])
      = some (0, 0, 30, 30) := by
    norm_num [pathBounds]
  have hcs : min ((30:ℚ) - 0) ((30:ℚ) - 0) / 10 = 3 := by norm_num
  simp only [findPositionFuel, hb, hcs]
  rw [refineLoop_eq_none sqrtQ contains _ 1 3 (by norm_num)]
  rfl

end PoleLabel

namespace DataSvc

/-- C9: GetElectionData rejects an empty or longer-than-2000 geoId list
and GetCensusData additionally an empty or longer-than-50 traitId list,
synchronously: on rejection the result is an error and is independent of
the query collaborator (no query executes); on acceptance the query
receives the full, untruncated lists. -/
theorem C9_list_limits :
    (∀ (ρ : Type) (dbQuery : ℤ → List String → ρ) (electionId : ℤ) (geoId : List String),
      ((geoId.length = 0 ∨ 2000 < geoId.length) →
          (∃ msg, GetElectionData dbQuery electionId geoId = .error msg)
            ∧ ∀ (dbQuery2 : ℤ → List String → ρ),
              GetElectionData dbQuery electionId geoId
                = GetElectionData dbQuery2 electionId geoId)
        ∧ (geoId.length ≠ 0 → geoId.length ≤ 2000 →
            GetElectionData dbQuery electionId geoId = .ok (dbQuery electionId geoId)))
    ∧ (∀ (ρ : Type) (dbQuery : List ℤ → List String → ρ) (traitId : List ℤ)
        (geoId : List String),
      ((geoId.length = 0 ∨ 2000 < geoId.length
          ∨ traitId.length = 0 ∨ 50 < traitId.length) →
          (∃ msg, GetCensusData dbQuery traitId geoId = .error msg)
            ∧ ∀ (dbQuery2 : List ℤ → List String → ρ),
              GetCensusData dbQuery traitId geoId = GetCensusData dbQuery2 traitId geoId)
        ∧ (geoId.length ≠ 0 → geoId.length ≤ 2000
            → traitId.length ≠ 0 → traitId.length ≤ 50 →
            GetCensusData dbQuery traitId geoId = .ok (dbQuery traitId geoId))) := by
  constructor
  · intro ρ dbQuery electionId geoId
    constructor
    · intro h
      have key : ∀ (q : ℤ → List String → ρ), ∃ msg,
          GetElectionData q electionId geoId = .error msg
            ∧ GetElectionData dbQuery electionId geoId
                = GetElectionData q electionId geoId := by
        intro q
        rcases h with h | h
        · refine ⟨"At least one geoId must be provided", ?_, ?_⟩ <;>
            simp only [GetElectionData, if_pos h]
        · refine ⟨"Too many geoIds", ?_, ?_⟩ <;>
            simp only [GetElectionData,
              if_neg (show ¬ geoId.length = 0 by omega),
              if_pos (show geoId.length > 2000 by omega)]
      obtain ⟨msg, h1, _⟩ := key dbQuery
      exact ⟨⟨msg, h1⟩, fun q2 => (key q2).elim (fun _ h => h.2)⟩
    · intro h1 h2
      simp only [GetElectionData, if_neg h1,
        if_neg (show ¬ geoId.length > 2000 by omega)]
  · intro ρ dbQuery traitId geoId
    constructor
    · intro h
      have key : ∀ (q : List ℤ → List String → ρ), ∃ msg,
          GetCensusData q traitId geoId = .error msg
            ∧ GetCensusData dbQuery traitId geoId = GetCensusData q traitId geoId := by
        intro q
        rcases h with h | h | h | h
        · refine ⟨"At least one geoId must be provided", ?_, ?_⟩ <;>
            simp only [GetCensusData, if_pos h]
        · refine ⟨"Too many geoIds", ?_, ?_⟩ <;>
            simp only [GetCensusData,
              if_neg (show ¬ geoId.length = 0 by omega),
              if_pos (show geoId.length > 2000 by omega)]
        · by_cases hg0 : geoId.length = 0
          · refine ⟨"At least one geoId must be provided", ?_, ?_⟩ <;>
              simp only [GetCensusData, if_pos hg0]
          · by_cases hg2 : geoId.length > 2000
            · refine ⟨"Too many geoIds", ?_, ?_⟩ <;>
                simp only [GetCensusData, if_neg hg0, if_pos hg2]
            · refine ⟨"At least one traitId must be provided", ?_, ?_⟩ <;>
                simp only [GetCensusData, if_neg hg0, if_neg hg2, if_pos h]
        · by_cases hg0 : geoId.length = 0
          · refine ⟨"At least one geoId must be provided", ?_, ?_⟩ <;>
              simp only [GetCensusData, if_pos hg0]
          · by_cases hg2 : geoId.length > 2000
            · refine ⟨"Too many geoIds", ?_, ?_⟩ <;>
                simp only [GetCensusData, if_neg hg0, if_pos hg2]
            · refine ⟨"Too many traitIds", ?_, ?_⟩ <;>
                simp only [GetCensusData, if_neg hg0, if_neg hg2,
                  if_neg (show ¬ traitId.length = 0 by omega),
                  if_pos (show traitId.length > 50 by omega)]
      obtain ⟨msg, h1, _⟩ := key dbQuery
      exact ⟨⟨msg, h1⟩, fun q2 => (key q2).elim (fun _ h => h.2)⟩
    · intro h1 h2 h3 h4
      simp only [GetCensusData, if_neg h1,
        if_neg (show ¬ geoId.length > 2000 by omega), if_neg h3,
        if_neg (show ¬ traitId.length > 50 by omega)]

/-- C9, witness: the limits theorem applied to concrete valid and invalid
argument lists. -/
theorem C9_witness :
    (∃ msg, GetElectionData (fun (_ : ℤ) (g : List String) => g.length) 1 []
        = .error msg)
      ∧ GetElectionData (fun (_ : ℤ) (g : List String) => g.length) 1 ["a"] = .ok 1
      ∧ (∃ msg, GetCensusData (fun (t : List ℤ) (_ : List String) => t.length) [] ["a"]
          = .error msg)
      ∧ GetCensusData (fun (t : List ℤ) (_ : List String) => t.length) [5] ["a"]
          = .ok 1 :=
  ⟨((C9_list_limits.1 ℕ _ 1 []).1 (Or.inl rfl)).1,
    (C9_list_limits.1 ℕ _ 1 ["a"]).2 (by decide) (by decide),
    ((C9_list_limits.2 ℕ _ [] ["a"]).1 (Or.inr (Or.inr (Or.inl rfl)))).1,
    (C9_list_limits.2 ℕ _ [5] ["a"]).2 (by decide) (by decide) (by decide) (by decide)⟩

end DataSvc

namespace MapSvc

/-- A candidate with nonzero area never faults: joining it against the
boundary rows keeps one copy per boundary row passing the ratio test. -/
theorem joinOne_ok {γ : Type} (area : γ → ℚ) (inter : γ → γ → γ)
    (s : Shp γ) (h : area s.geom ≠ 0) (bnds : List (Shp γ)) :
    joinOne area inter s bnds
      = .ok ((bnds.filter (fun b =>
          decide ((2:ℚ)/10 ≤ area (inter s.geom b.geom) / area s.geom))).map
          (fun _ => s)) := by
  induction bnds with
  | nil => rfl
  | cons b bs ih =>
    rw [joinOne, ratioPred, if_neg h, ih]
    by_cases hc : (2:ℚ)/10 ≤ area (inter s.geom b.geom) / area s.geom
    · simp [List.filter_cons, hc]
    · simp [List.filter_cons, hc]

/-- A zero-area candidate makes its very first ratio evaluation raise
division by zero. -/
theorem joinOne_err {γ : Type} (area : γ → ℚ) (inter : γ → γ → γ)
    (s : Shp γ) (h : area s.geom = 0) (b : Shp γ) (bs : List (Shp γ)) :
    joinOne area inter s (b :: bs) = .error "division by zero" := by
  rw [joinOne, ratioPred, if_pos h]

/-- With exactly one boundary row and nonzero candidate areas, the join
is the ratio filter over the candidates. -/
theorem joinAll_single {γ : Type} (area : γ → ℚ) (inter : γ → γ → γ)
    (b : Shp γ) (cands : List (Shp γ)) (h : ∀ s ∈ cands, area s.geom ≠ 0) :
    joinAll area inter [b] cands
      = .ok (cands.filter (fun s =>
          decide ((2:ℚ)/10 ≤ area (inter s.geom b.geom) / area s.geom))) := by
  induction cands with
  | nil => rfl
  | cons s ss ih =>
    rw [joinAll, joinOne_ok area inter s (h s (List.mem_cons_self s ss)) [b],
      ih (fun x hx => h x (List.mem_cons_of_mem s hx))]
    by_cases hc : (2:ℚ)/10 ≤ area (inter s.geom b.geom) / area s.geom
    · simp [List.filter_cons, hc]
    · simp [List.filter_cons, hc]

/-- With nonzero candidate areas the whole join succeeds. -/
theorem joinAll_ok {γ : Type} (area : γ → ℚ) (inter : γ → γ → γ)
    (bnds cands : List (Shp γ)) (h : ∀ s ∈ cands, area s.geom ≠ 0) :
    ∃ l, joinAll area inter bnds cands = .ok l := by
  induction cands with
  | nil => exact ⟨[], rfl⟩
  | cons s ss ih =>
    obtain ⟨l, hl⟩ := ih (fun x hx => h x (List.mem_cons_of_mem s hx))
    rw [joinAll, joinOne_ok area inter s (h s (List.mem_cons_self s ss)), hl]
    exact ⟨_, rfl⟩

/-- With at least one boundary row, a zero-area candidate anywhere in the
candidate list aborts the whole query with division by zero. -/
theorem joinAll_err {γ : Type} (area : γ → ℚ) (inter : γ → γ → γ)
    (b : Shp γ) (bs cands : List (Shp γ))
    (h : ∃ s ∈ cands, area s.geom = 0) :
    joinAll area inter (b :: bs) cands = .error "division by zero" := by
  induction cands with
  | nil => simp at h
  | cons s ss ih =>
    by_cases hz : area s.geom = 0
    · rw [joinAll, joinOne_err area inter s hz]
    · obtain ⟨x, hx, hxz⟩ := h
      rcases List.mem_cons.mp hx with rfl | hx2
      · exact absurd hxz hz
      · rw [joinAll, joinOne_ok area inter s hz, ih ⟨x, hx2, hxz⟩]

/-- C3, counterexample. The ratio division is NOT guarded: on a database
with boundary feature B (area 5) and candidate feature F of area 0, the
intersect query evaluates ST_Area(intersection)/ST_Area(F.geom) with a
zero denominator and PostgreSQL aborts with a division-by-zero error --
the zero-area feature is not treated as a quiet non-match. -/
theorem C3_counterexample :
    GetGeoJsonFromIntersect (γ := ℚ) id (fun a b => min a b)
      [⟨2, "B", 5⟩, ⟨1, "F", 0⟩] 1 2 "B" = .error "division by zero" := by
  have hc : ([⟨2, "B", 5⟩, ⟨1, "F", 0⟩] : List (Shp ℚ)).filter
      (fun s => s.map_id = 1) = [⟨1, "F", 0⟩] := by
    norm_num [List.filter_cons]
  have hb : ([⟨2, "B", 5⟩, ⟨1, "F", 0⟩] : List (Shp ℚ)).filter
      (fun b => b.map_id = 2 ∧ b.id = "B") = [⟨2, "B", 5⟩] := by
    norm_num [List.filter_cons]
  rw [GetGeoJsonFromIntersect]
  rw [hc, hb]
  exact joinAll_err id (fun a b => min a b) _ _ _ ⟨⟨1, "F", 0⟩, List.mem_singleton.mpr rfl, rfl⟩

/-- C3, amended. There is no zero-area guard in
GetGeoJsonFromIntersect: when every candidate feature of the target map
has nonzero area the query completes without any arithmetic fault, but
when a matching boundary row exists and some candidate has area zero the
whole query fails with a division-by-zero error instead of excluding that
candidate as a non-match. -/
theorem C3_amended (γ : Type) (area : γ → ℚ) (inter : γ → γ → γ)
    (db : List (Shp γ)) (mapId intersectMapId : ℤ) (intersectFeatureId : String) :
    ((∀ s ∈ db.filter (fun s => s.map_id = mapId), area s.geom ≠ 0) →
        ∃ l, GetGeoJsonFromIntersect area inter db mapId intersectMapId
          intersectFeatureId = .ok l)
      ∧ (db.filter (fun b => b.map_id = intersectMapId ∧ b.id = intersectFeatureId)
            ≠ [] →
          (∃ s ∈ db.filter (fun s => s.map_id = mapId), area s.geom = 0) →
          GetGeoJsonFromIntersect area inter db mapId intersectMapId
            intersectFeatureId = .error "division by zero") := by
  constructor
  · intro h
    exact joinAll_ok area inter _ _ h
  · intro hb h
    rw [GetGeoJsonFromIntersect]
    obtain ⟨b, bs, hbs⟩ := List.exists_cons_of_ne_nil hb
    rw [hbs]
    exact joinAll_err area inter b bs _ h

/-- C3, witness: the amended theorem applied to a two-feature database,
once with nonzero areas (success) and once with a zero-area candidate
(division-by-zero error). -/
theorem C3_witness :
    ((∀ s ∈ ([⟨2, "B", 5⟩, ⟨1, "F", 4⟩] : List (Shp ℚ)).filter
          (fun s => s.map_id = 1), id s.geom ≠ 0)
        ∧ ∃ l, GetGeoJsonFromIntersect (γ := ℚ) id (fun a b => min a b)
          [⟨2, "B", 5⟩, ⟨1, "F", 4⟩] 1 2 "B" = .ok l)
      ∧ (([⟨2, "B", 5⟩, ⟨1, "F", 0⟩] : List (Shp ℚ)).filter
            (fun b => b.map_id = 2 ∧ b.id = "B") ≠ []
          ∧ (∃ s ∈ ([⟨2, "B", 5⟩, ⟨1, "F", 0⟩] : List (Shp ℚ)).filter
              (fun s => s.map_id = 1), id s.geom = 0)
          ∧ GetGeoJsonFromIntersect (γ := ℚ) id (fun a b => min a b)
              [⟨2, "B", 5⟩, ⟨1, "F", 0⟩] 1 2 "B" = .error "division by zero") := by
  have h1 : ∀ s ∈ ([⟨2, "B", 5⟩, ⟨1, "F", 4⟩] : List (Shp ℚ)).filter
      (fun s => s.map_id = 1), id s.geom ≠ 0 := by
    intro s hs
    simp only [List.filter_cons, List.filter_nil] at hs
    norm_num at hs
    rw [hs]
    norm_num
  have h2 : ([⟨2, "B", 5⟩, ⟨1, "F", 0⟩] : List (Shp ℚ)).filter
      (fun b => b.map_id = 2 ∧ b.id = "B") ≠ [] := by
    norm_num [List.filter_cons]
  have h3 : ∃ s ∈ ([⟨2, "B", 5⟩, ⟨1, "F", 0⟩] : List (Shp ℚ)).filter
      (fun s => s.map_id = 1), id s.geom = 0 := by
    refine ⟨⟨1, "F", 0⟩, ?_, rfl⟩
    norm_num [List.filter_cons]
  exact ⟨⟨h1, (C3_amended ℚ id (fun a b => min a b) [⟨2, "B", 5⟩, ⟨1, "F", 4⟩] 1 2 "B").1 h1⟩,
    h2, h3, (C3_amended ℚ id (fun a b => min a b) [⟨2, "B", 5⟩, ⟨1, "F", 0⟩] 1 2 "B").2 h2 h3⟩

/-- C4: with the boundary row unique and candidate areas nonzero, the
intersect query returns exactly the target-map features whose
intersection area divided by their own area is at least 0.2, the
threshold being inclusive; membership in the result is equivalent to the
ratio condition. -/
theorem C4_overlap_ratio (γ : Type) (area : γ → ℚ) (inter : γ → γ → γ)
    (db : List (Shp γ)) (mapId intersectMapId : ℤ) (intersectFeatureId : String)
    (b : Shp γ)
    (hb : db.filter (fun x => x.map_id = intersectMapId ∧ x.id = intersectFeatureId)
      = [b])
    (hpos : ∀ s ∈ db.filter (fun s => s.map_id = mapId), area s.geom ≠ 0) :
    GetGeoJsonFromIntersect area inter db mapId intersectMapId intersectFeatureId
        = .ok ((db.filter (fun s => s.map_id = mapId)).filter (fun s =>
            decide ((2:ℚ)/10 ≤ area (inter s.geom b.geom) / area s.geom)))
      ∧ ∀ s ∈ db.filter (fun s => s.map_id = mapId),
          (s ∈ (db.filter (fun s => s.map_id = mapId)).filter (fun s =>
              decide ((2:ℚ)/10 ≤ area (inter s.geom b.geom) / area s.geom))
            ↔ (2:ℚ)/10 ≤ area (inter s.geom b.geom) / area s.geom) := by
  constructor
  · rw [GetGeoJsonFromIntersect, hb]
    exact joinAll_single area inter b _ hpos
  · intro s hs
    constructor
    · intro hmem
      have := (List.mem_filter.mp hmem).2
      exact of_decide_eq_true this
    · intro hr
      exact List.mem_filter.mpr ⟨hs, decide_eq_true hr⟩

/-- C4, witness: the ratio theorem applied to the spec scenario, feature
geometry modelled as (own area, intersection area with the boundary):
ratio 1.0 and ratio 0.25 are included, ratio 0.125 is excluded. -/
theorem C4_witness :
    (([⟨2, "B", ((100:ℚ), (0:ℚ))⟩, ⟨1, "A", (4, 4)⟩, ⟨1, "D", (4, 1)⟩,
          ⟨1, "C", (4, 1/2)⟩] : List (Shp (ℚ × ℚ))).filter
        (fun x => x.map_id = 2 ∧ x.id = "B") = [⟨2, "B", (100, 0)⟩])
      ∧ (∀ s ∈ ([⟨2, "B", ((100:ℚ), (0:ℚ))⟩, ⟨1, "A", (4, 4)⟩, ⟨1, "D", (4, 1)⟩,
            ⟨1, "C", (4, 1/2)⟩] : List (Shp (ℚ × ℚ))).filter
          (fun s => s.map_id = 1), Prod.fst s.geom ≠ 0)
      ∧ GetGeoJsonFromIntersect (γ := ℚ × ℚ) Prod.fst (fun g _ => (g.2, g.2))
          [⟨2, "B", (100, 0)⟩, ⟨1, "A", (4, 4)⟩, ⟨1, "D", (4, 1)⟩, ⟨1, "C", (4, 1/2)⟩]
          1 2 "B"
          = .ok [⟨1, "A", (4, 4)⟩, ⟨1, "D", (4, 1)⟩] := by
  have hb : ([⟨2, "B", ((100:ℚ), (0:ℚ))⟩, ⟨1, "A", (4, 4)⟩, ⟨1, "D", (4, 1)⟩,
        ⟨1, "C", (4, 1/2)⟩] : List (Shp (ℚ × ℚ))).filter
      (fun x => x.map_id = 2 ∧ x.id = "B") = [⟨2, "B", (100, 0)⟩] := by
    norm_num [List.filter_cons]
  have hcands : ([⟨2, "B", ((100:ℚ), (0:ℚ))⟩, ⟨1, "A", (4, 4)⟩, ⟨1, "D", (4, 1)⟩,
        ⟨1, "C", (4, 1/2)⟩] : List (Shp (ℚ × ℚ))).filter
      (fun s => s.map_id = 1)
      = [⟨1, "A", ((4:ℚ), (4:ℚ))⟩, ⟨1, "D", (4, 1)⟩, ⟨1, "C", (4, 1/2)⟩] := by
    norm_num [List.filter_cons]
  have hpos : ∀ s ∈ ([⟨2, "B", ((100:ℚ), (0:ℚ))⟩, ⟨1, "A", (4, 4)⟩, ⟨1, "D", (4, 1)⟩,
        ⟨1, "C", (4, 1/2)⟩] : List (Shp (ℚ × ℚ))).filter
      (fun s => s.map_id = 1), Prod.fst s.geom ≠ 0 := by
    rw [hcands]
    intro s hs
    simp only [List.mem_cons, List.not_mem_nil, or_false] at hs
    rcases hs with rfl | rfl | rfl <;> norm_num
  have hthm := C4_overlap_ratio (ℚ × ℚ) Prod.fst (fun g _ => (g.2, g.2))
    [⟨2, "B", (100, 0)⟩, ⟨1, "A", (4, 4)⟩, ⟨1, "D", (4, 1)⟩, ⟨1, "C", (4, 1/2)⟩]
    1 2 "B" ⟨2, "B", (100, 0)⟩ hb hpos
  refine ⟨hb, hpos, hthm.1.trans (congrArg Except.ok ?_)⟩
  rw [hcands]
  norm_num [List.filter_cons]


/-- C5, counterexample. The bounding-box endpoint does NOT return
simplified geometry: with one stored feature and an ST_CoverageSimplify
that changes the geometry (0 to 1), the endpoint returns the raw stored
geometry while the tolerance-simplified query would return the changed
one, and the two results differ. -/
theorem C5_counterexample :
    apiMapBounds (γ := ℤ) (fun _ _ => true) [⟨10, "F", 0⟩] 10 ⟨0, 0, 1, 1⟩ 12
        = [⟨10, "F", 0⟩]
      ∧ GetGeoJsonFromBoundsWithSimplify (γ := ℤ) (fun _ _ => true) (fun _ _ _ => 1)
          [⟨10, "F", 0⟩] 10 ⟨0, 0, 1, 1⟩ 12 = [⟨10, "F", 1⟩]
      ∧ apiMapBounds (γ := ℤ) (fun _ _ => true) [⟨10, "F", 0⟩] 10 ⟨0, 0, 1, 1⟩ 12
          ≠ GetGeoJsonFromBoundsWithSimplify (γ := ℤ) (fun _ _ => true)
            (fun _ _ _ => 1) [⟨10, "F", 0⟩] 10 ⟨0, 0, 1, 1⟩ 12 := by
  refine ⟨rfl, rfl, ?_⟩
  intro h
  have := List.head_eq_of_cons_eq h
  simp at this

/-- C5, amended. The bounding-box endpoint answers with
GetGeoJsonFromBounds on a zoom-remapped mapId (30 becomes 31, or 32 when
zoom is at most 9) and every returned feature is a stored row, geometry
untouched; the tolerance-table simplification applied once across the
whole result set lives only in GetGeoJsonFromBoundsWithSimplify, which the
endpoint never calls. -/
theorem C5_amended (γ : Type) (intersects : γ → BBox → Bool)
    (coverage : ℚ → List γ → γ → γ) (db : List (Shp γ)) (mapId : ℤ) (box : BBox)
    (zoom : ℤ) :
    apiMapBounds intersects db mapId box zoom
        = GetGeoJsonFromBounds intersects db
            (if mapId = 30 then (if zoom ≤ 9 then 32 else 31) else mapId) box
      ∧ (∀ f ∈ apiMapBounds intersects db mapId box zoom, f ∈ db)
      ∧ GetGeoJsonFromBoundsWithSimplify intersects coverage db mapId box zoom
          = (db.filter (fun s => s.map_id = mapId ∧ intersects s.geom box)).map
              (fun s => { s with geom := (coverage (GetSimplifyTolerance zoom)
                ((db.filter (fun s => s.map_id = mapId ∧ intersects s.geom box)).map
                  (fun s => s.geom)) s.geom) }) := by
  refine ⟨rfl, ?_, rfl⟩
  intro f hf
  exact List.mem_of_mem_filter hf

/-- C5, witness: the amended theorem applied to a one-feature database,
showing the returned feature is the stored row itself. -/
theorem C5_witness :
    (⟨10, "F", (0:ℤ)⟩ : Shp ℤ) ∈ apiMapBounds (γ := ℤ) (fun _ _ => true)
        [⟨10, "F", 0⟩] 10 ⟨0, 0, 1, 1⟩ 12
      ∧ (⟨10, "F", (0:ℤ)⟩ : Shp ℤ) ∈ ([⟨10, "F", 0⟩] : List (Shp ℤ)) := by
  have hmem : (⟨10, "F", (0:ℤ)⟩ : Shp ℤ) ∈ apiMapBounds (γ := ℤ) (fun _ _ => true)
      [⟨10, "F", 0⟩] 10 ⟨0, 0, 1, 1⟩ 12 := by
    show (⟨10, "F", (0:ℤ)⟩ : Shp ℤ) ∈ [⟨10, "F", 0⟩]
    exact List.mem_singleton.mpr rfl
  exact ⟨hmem, (C5_amended ℤ (fun _ _ => true) (fun _ _ _ => 1)
    [⟨10, "F", 0⟩] 10 ⟨0, 0, 1, 1⟩ 12).2.1 _ hmem⟩

end MapSvc

namespace MapHelperM

/-- The indexed map preserves length. -/
theorem length_mapIdxGo {α β : Type} (f : ℕ → α → β) (k : ℕ) (l : List α) :
    (mapIdxGo f k l).length = l.length := by
  induction l generalizing k with
  | nil => rfl
  | cons a as ih => simp [mapIdxGo, ih]

/-- Element j of the indexed map from offset k. -/
theorem getElem?_mapIdxGo {α β : Type} (f : ℕ → α → β) (k : ℕ) (l : List α) (j : ℕ) :
    (mapIdxGo f k l)[j]? = (l[j]?).map (f (k + j)) := by
  induction l generalizing k j with
  | nil => simp [mapIdxGo]
  | cons a as ih =>
    cases j with
    | zero => simp [mapIdxGo]
    | succ n =>
      simp only [mapIdxGo, List.getElem?_cons_succ, ih (k + 1) n]
      have harith : k + 1 + n = k + (n + 1) := by omega
      rw [harith]

/-- Element j of the indexed map from offset 0. -/
theorem getElem?_mapIdxL {α β : Type} (f : ℕ → α → β) (l : List α) (j : ℕ) :
    (mapIdxL f l)[j]? = (l[j]?).map (f j) := by
  rw [mapIdxL, getElem?_mapIdxGo]
  simp

/-- An indexed map that never turns the predicate on cannot raise the
count. -/
theorem countP_mapIdxGo_le {α : Type} (p : α → Bool) (f : ℕ → α → α) (k : ℕ)
    (l : List α) (h : ∀ i a, p (f i a) = true → p a = true) :
    (mapIdxGo f k l).countP p ≤ l.countP p := by
  induction l generalizing k with
  | nil => simp [mapIdxGo]
  | cons a as ih =>
    simp only [mapIdxGo, List.countP_cons]
    by_cases hp : p (f k a) = true
    · rw [if_pos hp, if_pos (h k a hp)]
      exact Nat.add_le_add (ih (k + 1)) le_rfl
    · rw [if_neg hp]
      have := ih (k + 1)
      by_cases hq : p a = true
      · rw [if_pos hq]; omega
      · rw [if_neg hq]; omega

/-- If the predicate can hold at one position only, the count is at most
one. -/
theorem countP_le_one_of_unique {α : Type} (p : α → Bool) (l : List α) (i : ℕ)
    (h : ∀ j a, j ≠ i → l[j]? = some a → p a = false) : l.countP p ≤ 1 := by
  induction l generalizing i with
  | nil => simp
  | cons a as ih =>
    simp only [List.countP_cons]
    cases i with
    | zero =>
      have hz : as.countP p = 0 := by
        rw [List.countP_eq_zero]
        intro x hx
        obtain ⟨n, hn, hget⟩ := List.getElem_of_mem hx
        have := h (n + 1) x (by omega) (by
          rw [List.getElem?_cons_succ]
          exact List.getElem?_eq_getElem hn ▸ congrArg some hget)
        simp [this]
      rw [hz]
      split <;> omega
    | succ m =>
      have ha : p a = false := h 0 a (by omega) (by simp)
      rw [ha]
      simp only [Bool.false_eq_true, if_false, Nat.add_zero]
      refine le_trans (ih m ?_) le_rfl
      intro j x hj hx
      exact h (j + 1) x (by omega) (by rwa [List.getElem?_cons_succ])

/-- A hidden layer never counts as a visible polygon. -/
theorem visiblePolygon_hideL (l : Layer) : visiblePolygon (hideL l) = false := by
  simp [visiblePolygon, hideL]

/-- After showLayer, only the shown position can hold a visible polygon
layer: the invariant holds unconditionally. -/
theorem showLayer_exclusion (s : State) (i : ℕ) :
    (showLayer s i).countP visiblePolygon ≤ 1 := by
  apply countP_le_one_of_unique _ _ i
  intro j a hj hja
  simp only [showLayer] at hja
  rw [getElem?_mapIdxL] at hja
  rw [getElem?_mapIdxL] at hja
  cases hsj : s[j]? with
  | none => rw [hsj] at hja; simp at hja
  | some l0 =>
    rw [hsj] at hja
    simp only [Option.map_some', Option.map_id', if_neg hj, Option.some.injEq] at hja
    by_cases hcond : l0.type = some .polygon ∧ l0.visible ∧ j ≠ i
    · rw [if_pos hcond] at hja
      rw [← hja]
      exact visiblePolygon_hideL l0
    · rw [if_neg hcond] at hja
      rw [← hja]
      simp only [visiblePolygon, Bool.and_eq_false_imp]
      by_cases hv : l0.visible = true
      · intro _
        by_contra htp
        exact hcond ⟨by simpa using htp, by simp [hv], hj⟩
      · simp [Bool.eq_false_iff.mpr hv]

/-- hideLayer never raises the visible-polygon count. -/
theorem hideLayer_countP_le (s : State) (i : ℕ) :
    (hideLayer s i).countP visiblePolygon ≤ s.countP visiblePolygon := by
  apply countP_mapIdxGo_le
  intro jj a hp
  by_cases hji : jj = i
  · rw [if_pos hji] at hp
    rw [visiblePolygon_hideL] at hp
    exact absurd hp (by simp)
  · rwa [if_neg hji] at hp

/-- After hideAllLayers no polygon layer is visible. -/
theorem hideAllLayers_countP (s : State) :
    (hideAllLayers s).countP visiblePolygon = 0 := by
  rw [List.countP_eq_zero]
  intro x hx
  obtain ⟨l, _, hl⟩ := List.mem_map.mp hx
  by_cases hv : l.visible = true
  · rw [if_pos hv] at hl
    rw [← hl]
    simp [visiblePolygon_hideL]
  · rw [if_neg hv] at hl
    rw [← hl]
    simp [visiblePolygon, Bool.eq_false_iff.mpr hv]

/-- removeLayer never raises the visible-polygon count. -/
theorem removeLayer_countP_le (s : State) (i : ℕ) :
    (removeLayer s i).countP visiblePolygon ≤ s.countP visiblePolygon :=
  le_trans (((hideLayer s i).eraseIdx_sublist i).countP_le visiblePolygon)
    (hideLayer_countP_le s i)

/-- addLayer appends a hidden layer (after removing any namesake), so it
never raises the visible-polygon count. -/
theorem addLayer_countP_le (s : State) (name : String) (gs : List GeomType) :
    (addLayer s name gs).countP visiblePolygon ≤ s.countP visiblePolygon := by
  rw [addLayer]
  cases hf : s.findIdx? (fun l => l.name = name) with
  | none =>
    simp only [List.countP_append]
    have : ([(⟨name, layerTypeOf gs, false⟩ : Layer)] : State).countP visiblePolygon
        = 0 := by
      simp [List.countP_cons, visiblePolygon]
    omega
  | some i =>
    simp only [List.countP_append]
    have h1 := removeLayer_countP_le s i
    have : ([(⟨name, layerTypeOf gs, false⟩ : Layer)] : State).countP visiblePolygon
        = 0 := by
      simp [List.countP_cons, visiblePolygon]
    omega

/-- C6: at most one polygon-type layer is visible at any time. The
invariant holds in the initial empty state and is preserved by addLayer,
showLayer, hideLayer, hideAllLayers, removeLayer and refreshLayer; showing
polygon layer B while polygon layer A is visible leaves A hidden and B
visible, and a simultaneously visible polyline layer is untouched by the
transition. -/
theorem C6_polygon_exclusion :
    polyExclusion ([] : State)
      ∧ (∀ (s : State) (name : String) (gs : List GeomType),
          polyExclusion s → polyExclusion (addLayer s name gs))
      ∧ (∀ (s : State) (i : ℕ), polyExclusion s → polyExclusion (showLayer s i))
      ∧ (∀ (s : State) (i : ℕ), polyExclusion s → polyExclusion (hideLayer s i))
      ∧ (∀ (s : State), polyExclusion s → polyExclusion (hideAllLayers s))
      ∧ (∀ (s : State) (i : ℕ), polyExclusion s → polyExclusion (removeLayer s i))
      ∧ (∀ (s : State), polyExclusion s → polyExclusion (refreshLayer s))
      ∧ (∀ a p b : Layer, a.type = some .polygon → a.visible = true →
          p.type = some .polyline → b.type = some .polygon → b.visible = false →
          showLayer [a, p, b] 2 = [hideL a, p, { b with visible := true }]) := by
  refine ⟨by simp [polyExclusion], ?_, ?_, ?_, ?_, ?_, ?_, ?_⟩
  · intro s name gs h
    exact le_trans (addLayer_countP_le s name gs) h
  · intro s i _
    exact showLayer_exclusion s i
  · intro s i h
    exact le_trans (hideLayer_countP_le s i) h
  · intro s _
    rw [polyExclusion, hideAllLayers_countP s]
    omega
  · intro s i h
    exact le_trans (removeLayer_countP_le s i) h
  · intro s h
    exact h
  · intro a p b hat hav hpt hbt hbv
    simp only [showLayer, mapIdxL, mapIdxGo, hat, hav, hpt, hbt, hbv]
    norm_num
    exact ⟨(fun h => nomatch h), hbt⟩

/-- C6, witness: the invariant and the A/polyline/B scenario at a concrete
three-layer state. -/
theorem C6_witness :
    polyExclusion ([⟨"A", some .polygon, true⟩, ⟨"P", some .polyline, true⟩,
        ⟨"B", some .polygon, false⟩] : State)
      ∧ polyExclusion (showLayer [⟨"A", some .polygon, true⟩,
          ⟨"P", some .polyline, true⟩, ⟨"B", some .polygon, false⟩] 2)
      ∧ showLayer [⟨"A", some .polygon, true⟩, ⟨"P", some .polyline, true⟩,
          ⟨"B", some .polygon, false⟩] 2
        = [⟨"A", some .polygon, false⟩, ⟨"P", some .polyline, true⟩,
            ⟨"B", some .polygon, true⟩] := by
  have h0 : polyExclusion ([⟨"A", some .polygon, true⟩, ⟨"P", some .polyline, true⟩,
      ⟨"B", some .polygon, false⟩] : State) := by decide
  refine ⟨h0, C6_polygon_exclusion.2.2.1 _ 2 h0, ?_⟩
  exact C6_polygon_exclusion.2.2.2.2.2.2.2 ⟨"A", some .polygon, true⟩
    ⟨"P", some .polyline, true⟩ ⟨"B", some .polygon, false⟩ rfl rfl rfl rfl rfl

/-- C10: showLayer hides every other currently visible polygon layer
whatever the type of the layer being shown: the exclusion loop tests only
the other layer's type, so showing a polyline or point layer also hides a
visible polygon layer. -/
theorem C10_show_hides_other_polygons (s : State) (i j : ℕ) (l : Layer)
    (hne : j ≠ i) (hj : s[j]? = some l) (ht : l.type = some .polygon)
    (hv : l.visible = true) :
    ((showLayer s i)[j]?).map Layer.visible = some false := by
  simp only [showLayer]
  rw [getElem?_mapIdxL, getElem?_mapIdxL, hj]
  simp only [Option.map_some', if_neg hne]
  rw [if_pos (show l.type = some LType.polygon ∧ l.visible = true ∧ j ≠ i from
    ⟨ht, hv, hne⟩)]
  simp [hideL]

/-- C10, witness: showing a polyline layer hides the visible polygon
layer at position 0. -/
theorem C10_witness :
    (0 : ℕ) ≠ 1
      ∧ ([⟨"A", some .polygon, true⟩, ⟨"P", some .polyline, false⟩] : State)[0]?
          = some ⟨"A", some .polygon, true⟩
      ∧ ((showLayer [⟨"A", some .polygon, true⟩,
          ⟨"P", some .polyline, false⟩] 1)[0]?).map Layer.visible = some false :=
  ⟨by decide, rfl,
    C10_show_hides_other_polygons _ 1 0 ⟨"A", some .polygon, true⟩
      (by decide) rfl rfl rfl⟩

end MapHelperM

namespace DataTs

/-- Map.set makes has true for the written key. -/
theorem ahas_aset_self {κ α : Type} [BEq κ] [LawfulBEq κ] (m : AMap κ α) (k : κ)
    (v : α) : ahas (aset m k v) k = true := by
  rw [aset]
  by_cases h : ahas m k = true
  · rw [if_pos h]
    rw [ahas] at h ⊢
    obtain ⟨e, he, hek⟩ := List.find?_isSome.mp h
    apply List.find?_isSome.mpr
    refine ⟨(k, v), ?_, by simp⟩
    apply List.mem_map.mpr
    exact ⟨e, he, by rw [if_pos hek]⟩
  · rw [if_neg h, ahas]
    apply List.find?_isSome.mpr
    refine ⟨(k, v), by simp, by simp⟩

/-- Map.set never removes a key. -/
theorem ahas_aset_of_ahas {κ α : Type} [BEq κ] [LawfulBEq κ] (m : AMap κ α)
    (k k2 : κ) (v : α) (h : ahas m k2 = true) : ahas (aset m k v) k2 = true := by
  rw [aset]
  by_cases hk : ahas m k = true
  · rw [if_pos hk, ahas]
    rw [ahas] at h
    obtain ⟨e, he, hek⟩ := List.find?_isSome.mp h
    apply List.find?_isSome.mpr
    by_cases hqk : e.1 == k
    · refine ⟨(k, v), ?_, ?_⟩
      · exact List.mem_map.mpr ⟨e, he, by rw [if_pos hqk]⟩
      · have h1 : e.1 = k := eq_of_beq hqk
        have h2 : e.1 = k2 := eq_of_beq hek
        simp [← h1, h2]
    · refine ⟨e, ?_, hek⟩
      exact List.mem_map.mpr ⟨e, he, by rw [if_neg hqk]⟩
  · rw [if_neg hk, ahas]
    rw [ahas] at h
    obtain ⟨e, he, hek⟩ := List.find?_isSome.mp h
    exact List.find?_isSome.mpr ⟨e, List.mem_append_left _ he, hek⟩

/-- A fold whose step preserves key presence preserves it overall. -/
theorem ahas_foldl {κ α β : Type} [BEq κ] [LawfulBEq κ]
    (f : AMap κ α → β → AMap κ α)
    (hf : ∀ m b k, ahas m k = true → ahas (f m b) k = true) :
    ∀ (l : List β) (m : AMap κ α) (k : κ),
      ahas m k = true → ahas (l.foldl f m) k = true := by
  intro l
  induction l with
  | nil => intro m k h; exact h
  | cons a as ih => intro m k h; exact ih (f m a) k (hf m a k h)

/-- The placeholder loop leaves every processed id present in the map. -/
theorem fold_put_has {κ α β : Type} [BEq κ] [LawfulBEq κ] (keyf : β → κ) (v : α) :
    ∀ (l : List β) (m : AMap κ α) (b : β), b ∈ l →
      ahas (l.foldl (fun m g => if ahas m (keyf g) then m else aset m (keyf g) v) m)
        (keyf b) = true := by
  intro l
  induction l with
  | nil => intro m b hb; simp at hb
  | cons a as ih =>
    intro m b hb
    have hstep : ∀ (m2 : AMap κ α) (g : β) (k : κ), ahas m2 k = true →
        ahas (if ahas m2 (keyf g) then m2 else aset m2 (keyf g) v) k = true := by
      intro m2 g k h
      by_cases hg : ahas m2 (keyf g) = true
      · rwa [if_pos hg]
      · rw [if_neg hg]; exact ahas_aset_of_ahas m2 (keyf g) k v h
    rcases List.mem_cons.mp hb with rfl | hbs
    · have h1 : ahas (if ahas m (keyf b) then m else aset m (keyf b) v) (keyf b)
          = true := by
        by_cases hg : ahas m (keyf b) = true
        · rwa [if_pos hg]
        · rw [if_neg hg]; exact ahas_aset_self m (keyf b) v
      exact ahas_foldl _ hstep as _ (keyf b) h1
    · exact ih _ b hbs

/-- A successful loadElectionData: status ok, one fetch exactly when some
id was missing, and afterwards every requested id is cached (rows or
empty placeholder). -/
theorem loadElection_ok_shape (f : ℤ → List String → List ERow) (eid : ℤ)
    (cache : AMap String (List ERow)) (geoIds : List String) :
    ∃ c, loadElectionData (fun e ids => .ok (f e ids)) eid cache geoIds
        = (.ok (), c,
            if (geoIds.filter (fun g => ! ahas cache (ekey eid g))).isEmpty then 0 else 1)
      ∧ ∀ g ∈ geoIds, ahas c (ekey eid g) = true := by
  by_cases hmiss : (geoIds.filter (fun g => ! ahas cache (ekey eid g))).isEmpty = true
  · refine ⟨cache, ?_, ?_⟩
    · rw [loadElectionData, if_pos hmiss, if_pos hmiss]
    · intro g hg
      have hnil : geoIds.filter (fun g => ! ahas cache (ekey eid g)) = [] :=
        List.isEmpty_iff.mp hmiss
      by_contra hno
      have : g ∈ geoIds.filter (fun g => ! ahas cache (ekey eid g)) :=
        List.mem_filter.mpr ⟨hg, by simp [Bool.eq_false_iff.mpr hno]⟩
      rw [hnil] at this
      simp at this
  · rw [loadElectionData, if_neg hmiss, if_neg hmiss]
    refine ⟨_, rfl, ?_⟩
    intro g hg
    have hmergestep : ∀ (m : AMap String (List ERow)) (row : ERow) (k : String),
        ahas m k = true →
        ahas ((fun m row =>
            let k2 := ekey eid row.g
            let group := (aget m k2).getD []
            let group2 := if group.any (fun r => r.p == row.p) then group
              else group ++ [row]
            aset m k2 group2) m row) k = true := by
      intro m row k h
      exact ahas_aset_of_ahas _ _ _ _ h
    by_cases hc : ahas cache (ekey eid g) = true
    · apply ahas_foldl _ hmergestep
      apply ahas_foldl _ ?_ _ _ _ hc
      intro m b k h
      by_cases hb : ahas m (ekey eid b) = true
      · rwa [if_pos hb]
      · rw [if_neg hb]; exact ahas_aset_of_ahas _ _ _ _ h
    · apply ahas_foldl _ hmergestep
      apply fold_put_has (fun g => ekey eid g) []
      exact List.mem_filter.mpr ⟨hg, by simp [Bool.eq_false_iff.mpr hc]⟩

/-- When every requested id is cached, loadElectionData leaves the cache
untouched and issues no fetch, whatever the fetch function. -/
theorem loadElection_cached_noop (fetch : ℤ → List String → Except Unit (List ERow))
    (eid : ℤ) (cache : AMap String (List ERow)) (geoIds : List String)
    (h : ∀ g ∈ geoIds, ahas cache (ekey eid g) = true) :
    loadElectionData fetch eid cache geoIds = (.ok (), cache, 0) := by
  have hnil : geoIds.filter (fun g => ! ahas cache (ekey eid g)) = [] := by
    rw [List.filter_eq_nil_iff]
    intro g hg
    simp [h g hg]
  rw [loadElectionData]
  simp only [hnil]
  rfl

/-- Map.set never shrinks the map. -/
theorem length_le_aset {κ α : Type} [BEq κ] (m : AMap κ α) (k : κ) (v : α) :
    m.length ≤ (aset m k v).length := by
  rw [aset]
  by_cases h : ahas m k = true
  · rw [if_pos h, List.length_map]
  · rw [if_neg h, List.length_append]
    omega

/-- Storing fetched traits never shrinks the trait cache. -/
theorem length_le_fold_aset (ft : List CTrait) :
    ∀ (m : AMap ℤ CTrait),
      m.length ≤ (ft.foldl (fun m tr => aset m tr.id tr) m).length := by
  induction ft with
  | nil => intro m; exact le_rfl
  | cons t ts ih =>
    intro m
    exact le_trans (length_le_aset m t.id t) (ih (aset m t.id t))

/-- Loading the census traits twice equals loading them once. -/
theorem loadCensusTraits_idem (ft : List CTrait) (tc : AMap ℤ CTrait) :
    loadCensusTraits ft (loadCensusTraits ft tc) = loadCensusTraits ft tc := by
  by_cases h : tc.length > 0
  · have h1 : loadCensusTraits ft tc = tc := by rw [loadCensusTraits, if_pos h]
    rw [h1]
    exact h1
  · have htc : tc = [] := List.length_eq_zero.mp (by omega)
    subst htc
    by_cases hlen : (loadCensusTraits ft []).length > 0
    · rw [loadCensusTraits, if_pos hlen]
    · have h0 : loadCensusTraits ft [] = [] := List.length_eq_zero.mp (by omega)
      rw [h0]
      exact h0

/-- A successful loadCensusData: status ok, trait cache loaded, one data
fetch exactly when some id was missing, and afterwards every requested id
is cached. -/
theorem loadCensus_ok_shape (ft : List CTrait) (fc : List ℤ → List String → List CRow)
    (tc : AMap ℤ CTrait) (cc : AMap String (List CRow)) (trait : CTrait)
    (traits : List CTrait) (geoIds : List String) :
    ∃ c, loadCensusData ft (fun t ids => .ok (fc t ids)) tc cc trait traits geoIds
        = (.ok (), loadCensusTraits ft tc, c,
            if (geoIds.filter (fun g => ! ahas cc g)).isEmpty then 0 else 1)
      ∧ ∀ g ∈ geoIds, ahas c g = true := by
  by_cases hmiss : (geoIds.filter (fun g => ! ahas cc g)).isEmpty = true
  · refine ⟨cc, ?_, ?_⟩
    · rw [loadCensusData, if_pos hmiss, if_pos hmiss]
    · intro g hg
      have hnil : geoIds.filter (fun g => ! ahas cc g) = [] :=
        List.isEmpty_iff.mp hmiss
      by_contra hno
      have : g ∈ geoIds.filter (fun g => ! ahas cc g) :=
        List.mem_filter.mpr ⟨hg, by simp [Bool.eq_false_iff.mpr hno]⟩
      rw [hnil] at this
      simp at this
  · rw [loadCensusData, if_neg hmiss, if_neg hmiss]
    refine ⟨_, rfl, ?_⟩
    intro g hg
    have hmergestep : ∀ (m : AMap String (List CRow)) (row : CRow) (k : String),
        ahas m k = true →
        ahas ((fun m row =>
            let group := (aget m row.g).getD []
            let group2 := if group.any (fun r => r.t == row.t) then group
              else group ++ [row]
            aset m row.g group2) m row) k = true := by
      intro m row k h
      exact ahas_aset_of_ahas _ _ _ _ h
    by_cases hc : ahas cc g = true
    · apply ahas_foldl _ hmergestep
      apply ahas_foldl _ ?_ _ _ _ hc
      intro m b k h
      by_cases hb : ahas m b = true
      · rwa [if_pos hb]
      · rw [if_neg hb]; exact ahas_aset_of_ahas _ _ _ _ h
    · apply ahas_foldl _ hmergestep
      apply fold_put_has (fun g => g) []
      exact List.mem_filter.mpr ⟨hg, by simp [Bool.eq_false_iff.mpr hc]⟩

/-- When every requested id is cached, loadCensusData leaves the census
cache untouched and issues no data fetch, whatever the fetch function. -/
theorem loadCensus_cached_noop (ft : List CTrait)
    (fetch : List ℤ → List String → Except Unit (List CRow))
    (tc : AMap ℤ CTrait) (cc : AMap String (List CRow)) (trait : CTrait)
    (traits : List CTrait) (geoIds : List String)
    (h : ∀ g ∈ geoIds, ahas cc g = true) :
    loadCensusData ft fetch tc cc trait traits geoIds
      = (.ok (), loadCensusTraits ft tc, cc, 0) := by
  have hnil : geoIds.filter (fun g => ! ahas cc g) = [] := by
    rw [List.filter_eq_nil_iff]
    intro g hg
    simp [h g hg]
  rw [loadCensusData]
  simp only [hnil]
  rfl

/-- A rejected election fetch propagates with the cache exactly as it
was: no placeholder is written. -/
theorem loadElection_err (eid : ℤ) (cache : AMap String (List ERow))
    (geoIds : List String) (g0 : String) (hg0 : g0 ∈ geoIds)
    (hmiss0 : ahas cache (ekey eid g0) = false) :
    loadElectionData (fun _ _ => .error ()) eid cache geoIds
      = (.error (), cache, 1) := by
  have hmem : g0 ∈ geoIds.filter (fun g => ! ahas cache (ekey eid g)) :=
    List.mem_filter.mpr ⟨hg0, by simp [hmiss0]⟩
  have hne : (geoIds.filter (fun g => ! ahas cache (ekey eid g))).isEmpty ≠ true := by
    intro he
    rw [List.isEmpty_iff.mp he] at hmem
    simp at hmem
  rw [loadElectionData, if_neg hne]

/-- A rejected census data fetch propagates with the census cache exactly
as it was: no placeholder is written (the reference trait cache was
already loaded before the data fetch). -/
theorem loadCensus_err (ft : List CTrait) (tc : AMap ℤ CTrait)
    (cc : AMap String (List CRow)) (trait : CTrait) (traits : List CTrait)
    (geoIds : List String) (g1 : String) (hg1 : g1 ∈ geoIds)
    (hmiss1 : ahas cc g1 = false) :
    loadCensusData ft (fun _ _ => .error ()) tc cc trait traits geoIds
      = (.error (), loadCensusTraits ft tc, cc, 1) := by
  have hmem : g1 ∈ geoIds.filter (fun g => ! ahas cc g) :=
    List.mem_filter.mpr ⟨hg1, by simp [hmiss1]⟩
  have hne : (geoIds.filter (fun g => ! ahas cc g)).isEmpty ≠ true := by
    intro he
    rw [List.isEmpty_iff.mp he] at hmem
    simp at hmem
  rw [loadCensusData, if_neg hne]

/-- C7: the fetch-and-cache operations are idempotent over the network.
With at least one requested id missing from the cache, the first call
issues exactly one batched data fetch; the second call with the same ids
and trait finds every id cached (including empty placeholders), issues
zero fetches, returns the caches unchanged, and tooltip lookups read
identically after both calls. The census traits listing, a section-6
reference-data pass-through, is not a batched data fetch and is loaded at
most once. -/
theorem C7_idempotent_fetch
    (f : ℤ → List String → List ERow) (pc : String → String) (eid : ℤ)
    (cache : AMap String (List ERow)) (geoIds : List String)
    (g0 : String) (hg0 : g0 ∈ geoIds) (hmiss0 : ahas cache (ekey eid g0) = false)
    (ft : List CTrait) (fc : List ℤ → List String → List CRow)
    (tf : ℚ → ℕ → String) (tc : AMap ℤ CTrait) (cc : AMap String (List CRow))
    (trait : CTrait) (traits : List CTrait) (geoIds2 : List String)
    (g1 : String) (hg1 : g1 ∈ geoIds2) (hmiss1 : ahas cc g1 = false) :
    ((loadElectionData (fun e ids => .ok (f e ids)) eid cache geoIds).2.2 = 1
      ∧ loadElectionData (fun e ids => .ok (f e ids)) eid
            (loadElectionData (fun e ids => .ok (f e ids)) eid cache geoIds).2.1 geoIds
          = (.ok (),
              (loadElectionData (fun e ids => .ok (f e ids)) eid cache geoIds).2.1, 0)
      ∧ ∀ id, getTooltipElection pc
            (loadElectionData (fun e ids => .ok (f e ids)) eid
              (loadElectionData (fun e ids => .ok (f e ids)) eid cache geoIds).2.1
              geoIds).2.1 eid id
          = getTooltipElection pc
              (loadElectionData (fun e ids => .ok (f e ids)) eid cache geoIds).2.1
              eid id)
    ∧ ((loadCensusData ft (fun t ids => .ok (fc t ids)) tc cc trait traits
          geoIds2).2.2.2 = 1
      ∧ loadCensusData ft (fun t ids => .ok (fc t ids))
            (loadCensusData ft (fun t ids => .ok (fc t ids)) tc cc trait traits
              geoIds2).2.1
            (loadCensusData ft (fun t ids => .ok (fc t ids)) tc cc trait traits
              geoIds2).2.2.1 trait traits geoIds2
          = (.ok (),
              (loadCensusData ft (fun t ids => .ok (fc t ids)) tc cc trait traits
                geoIds2).2.1,
              (loadCensusData ft (fun t ids => .ok (fc t ids)) tc cc trait traits
                geoIds2).2.2.1, 0)
      ∧ ∀ id, getTooltipCensus tf
            (loadCensusData ft (fun t ids => .ok (fc t ids))
              (loadCensusData ft (fun t ids => .ok (fc t ids)) tc cc trait traits
                geoIds2).2.1
              (loadCensusData ft (fun t ids => .ok (fc t ids)) tc cc trait traits
                geoIds2).2.2.1 trait traits geoIds2).2.2.1
            (loadCensusData ft (fun t ids => .ok (fc t ids))
              (loadCensusData ft (fun t ids => .ok (fc t ids)) tc cc trait traits
                geoIds2).2.1
              (loadCensusData ft (fun t ids => .ok (fc t ids)) tc cc trait traits
                geoIds2).2.2.1 trait traits geoIds2).2.1 id
          = getTooltipCensus tf
              (loadCensusData ft (fun t ids => .ok (fc t ids)) tc cc trait traits
                geoIds2).2.2.1
              (loadCensusData ft (fun t ids => .ok (fc t ids)) tc cc trait traits
                geoIds2).2.1 id) := by
  constructor
  · obtain ⟨c, heq, hall⟩ := loadElection_ok_shape f eid cache geoIds
    have hmem : g0 ∈ geoIds.filter (fun g => ! ahas cache (ekey eid g)) :=
      List.mem_filter.mpr ⟨hg0, by simp [hmiss0]⟩
    have hne : (geoIds.filter (fun g => ! ahas cache (ekey eid g))).isEmpty ≠ true := by
      intro he
      rw [List.isEmpty_iff.mp he] at hmem
      simp at hmem
    have hcount : (loadElectionData (fun e ids => .ok (f e ids)) eid cache
        geoIds).2.2 = 1 := by
      rw [heq]
      simp [hne]
    have hc : (loadElectionData (fun e ids => .ok (f e ids)) eid cache geoIds).2.1
        = c := by rw [heq]
    have hsecond := loadElection_cached_noop (fun e ids => .ok (f e ids)) eid c
      geoIds hall
    refine ⟨hcount, ?_, ?_⟩
    · rw [hc, hsecond]
    · intro id
      rw [hc, hsecond]
  · obtain ⟨c, heq, hall⟩ := loadCensus_ok_shape ft fc tc cc trait traits geoIds2
    have hmem : g1 ∈ geoIds2.filter (fun g => ! ahas cc g) :=
      List.mem_filter.mpr ⟨hg1, by simp [hmiss1]⟩
    have hne : (geoIds2.filter (fun g => ! ahas cc g)).isEmpty ≠ true := by
      intro he
      rw [List.isEmpty_iff.mp he] at hmem
      simp at hmem
    have hcount : (loadCensusData ft (fun t ids => .ok (fc t ids)) tc cc trait
        traits geoIds2).2.2.2 = 1 := by
      rw [heq]
      simp [hne]
    have htc1 : (loadCensusData ft (fun t ids => .ok (fc t ids)) tc cc trait traits
        geoIds2).2.1 = loadCensusTraits ft tc := by rw [heq]
    have hcc1 : (loadCensusData ft (fun t ids => .ok (fc t ids)) tc cc trait traits
        geoIds2).2.2.1 = c := by rw [heq]
    have hsecond := loadCensus_cached_noop ft (fun t ids => .ok (fc t ids))
      (loadCensusTraits ft tc) c trait traits geoIds2 hall
    rw [loadCensusTraits_idem ft tc] at hsecond
    refine ⟨hcount, ?_, ?_⟩
    · rw [htc1, hcc1, hsecond]
    · intro id
      rw [htc1, hcc1, hsecond]

/-- C7, witness: one election and one census load from an empty cache
each issue exactly one fetch. -/
theorem C7_witness :
    (loadElectionData (fun _ _ => .ok []) 1 [] ["a"]).2.2 = 1
      ∧ (loadCensusData [] (fun _ _ => .ok []) [] [] ⟨1, "t", none, false⟩ []
          ["b"]).2.2.2 = 1 := by
  have h := C7_idempotent_fetch (fun _ _ => []) (fun _ => "") 1 [] ["a"] "a"
    (List.mem_singleton.mpr rfl) rfl
    [] (fun _ _ => []) (fun _ _ => "") [] [] ⟨1, "t", none, false⟩ [] ["b"] "b"
    (List.mem_singleton.mpr rfl) rfl
  exact ⟨h.1.1, h.2.1⟩

/-- C8: cache writes are atomic with respect to fetch failure. A rejected
batched fetch leaves the operation with an error and the id cache exactly
as it was (no placeholder for any requested id), and a retry with the
same ids against that cache issues the fetch again. -/
theorem C8_failure_atomic
    (eid : ℤ) (cache : AMap String (List ERow)) (geoIds : List String)
    (g0 : String) (hg0 : g0 ∈ geoIds) (hmiss0 : ahas cache (ekey eid g0) = false)
    (f : ℤ → List String → List ERow)
    (ft : List CTrait) (fc : List ℤ → List String → List CRow)
    (tc : AMap ℤ CTrait) (cc : AMap String (List CRow)) (trait : CTrait)
    (traits : List CTrait) (geoIds2 : List String)
    (g1 : String) (hg1 : g1 ∈ geoIds2) (hmiss1 : ahas cc g1 = false) :
    (loadElectionData (fun _ _ => .error ()) eid cache geoIds
        = (.error (), cache, 1)
      ∧ (loadElectionData (fun e ids => .ok (f e ids)) eid cache geoIds).2.2 = 1)
    ∧ (loadCensusData ft (fun _ _ => .error ()) tc cc trait traits geoIds2
        = (.error (), loadCensusTraits ft tc, cc, 1)
      ∧ (loadCensusData ft (fun t ids => .ok (fc t ids)) tc cc trait traits
          geoIds2).2.2.2 = 1) := by
  have hmem : g0 ∈ geoIds.filter (fun g => ! ahas cache (ekey eid g)) :=
    List.mem_filter.mpr ⟨hg0, by simp [hmiss0]⟩
  have hne : (geoIds.filter (fun g => ! ahas cache (ekey eid g))).isEmpty ≠ true := by
    intro he
    rw [List.isEmpty_iff.mp he] at hmem
    simp at hmem
  have hmem2 : g1 ∈ geoIds2.filter (fun g => ! ahas cc g) :=
    List.mem_filter.mpr ⟨hg1, by simp [hmiss1]⟩
  have hne2 : (geoIds2.filter (fun g => ! ahas cc g)).isEmpty ≠ true := by
    intro he
    rw [List.isEmpty_iff.mp he] at hmem2
    simp at hmem2
  refine ⟨⟨loadElection_err eid cache geoIds g0 hg0 hmiss0, ?_⟩,
    loadCensus_err ft tc cc trait traits geoIds2 g1 hg1 hmiss1, ?_⟩
  · obtain ⟨c, heq, _⟩ := loadElection_ok_shape f eid cache geoIds
    rw [heq]
    simp [hne]
  · obtain ⟨c, heq, _⟩ := loadCensus_ok_shape ft fc tc cc trait traits geoIds2
    rw [heq]
    simp [hne2]

/-- C8, witness: failing loads from an empty cache leave it empty with
exactly one attempted fetch. -/
theorem C8_witness :
    loadElectionData (fun _ _ => .error ()) 1 [] ["a"] = (.error (), [], 1)
      ∧ loadCensusData [] (fun _ _ => .error ()) [] [] ⟨1, "t", none, false⟩ []
          ["b"] = (.error (), [], [], 1) := by
  have h := C8_failure_atomic 1 [] ["a"] "a" (List.mem_singleton.mpr rfl) rfl
    (fun _ _ => []) [] (fun _ _ => []) [] [] ⟨1, "t", none, false⟩ [] ["b"] "b"
    (List.mem_singleton.mpr rfl) rfl
  exact ⟨h.1.1, h.2.1⟩

end DataTs

end Emaps

